import Mathlib

/- Shallow embedding of the wind-map repository
   (wind-map-with-maplibre).  All numeric values are modelled as exact
   rationals.  The transcendental functions of the JavaScript Math object
   (sin, cos, sqrt and the constant PI), the pseudo-random number
   generator, and the map projection methods are abstracted as an
   environment record that also carries the mathematical facts the code
   relies on: sine and cosine take values in [-1, 1] and square root is
   strictly monotone on nonnegative arguments. -/

namespace WindMap

/-- Environment abstracting the JavaScript Math object, the PRNG
(successive draws are indexed by a counter threaded through the code) and
the map projection used by the wind-map code.  A projection call that may
throw in the source (it is wrapped in try/catch there) is modelled by the
Option-valued fields; the unguarded call of mockWindData.ts is total. -/
structure Env where
  sin : ℚ → ℚ
  cos : ℚ → ℚ
  sqrt : ℚ → ℚ
  pi : ℚ
  rand : ℕ → ℚ
  unproject : ℚ × ℚ → ℚ × ℚ
  unprojectE : ℚ × ℚ → Option (ℚ × ℚ)
  projectE : ℚ × ℚ → Option (ℚ × ℚ)
  sin_abs_le : ∀ x, |sin x| ≤ 1
  cos_abs_le : ∀ x, |cos x| ≤ 1
  sqrt_lt_iff : ∀ a b, 0 ≤ a → 0 ≤ b → (sqrt a < sqrt b ↔ a < b)

/-- Concrete environment used to evaluate the embedding on closed inputs. -/
def trivEnv : Env where
  sin := fun _ => 0
  cos := fun _ => 1
  sqrt := fun x => x
  pi := 0
  rand := fun _ => 0
  unproject := fun p => p
  unprojectE := fun p => some p
  projectE := fun p => some p
  sin_abs_le := by intro x; norm_num
  cos_abs_le := by intro x; norm_num
  sqrt_lt_iff := by intro a b _ _; exact Iff.rfl

/-- Geographic bounds record (west, south, east, north), as used across
the repository. -/
structure Bounds where
  west : ℚ
  south : ℚ
  east : ℚ
  north : ℚ
deriving DecidableEq, Repr

/-- WindPoint of mockWindData.ts: a sample position (stored there as the
pair position[0] = longitude, position[1] = latitude) with a wind
direction in radians and a normalized speed. -/
structure WindPoint where
  lon : ℚ
  lat : ℚ
  direction : ℚ
  speed : ℚ
deriving DecidableEq, Repr

/-- JavaScript Math.round: round half toward positive infinity. -/
def jsRound (x : ℚ) : ℤ := ⌊x + 1 / 2⌋

/-- getWindColor of mockWindData.ts: RGB color from a wind speed, in
three bands split at 0.3 and 0.6. -/
def getWindColor (speed : ℚ) : ℤ × ℤ × ℤ :=
  if speed < 3 / 10 then
    (30, 144, 255)
  else if speed < 3 / 5 then
    (255, jsRound (200 + speed * 55), 0)
  else
    (255, jsRound (165 - speed * 165), 0)

/-- Direction and speed formulas of generateMockWindData, split at
latitude 14.0 into a northern and a southern regime. -/
def windFormula (env : Env) (lon lat : ℚ) : ℚ × ℚ :=
  if lat > 14 then
    (env.pi * (1 / 2) + env.sin (lat * (3 / 10)) * (1 / 2) +
       env.cos (lon * (1 / 5)) * (3 / 10),
     3 / 10 + (3 / 10) * |env.sin (lat * (1 / 10) + lon * (1 / 5))|)
  else
    (env.pi * (1 / 4) + env.sin (lat * (2 / 5) + lon * (3 / 10)) * env.pi * (1 / 2) +
       env.cos (lat * (3 / 10)) * (2 / 5),
     1 / 5 + (2 / 5) * |env.sin (lat * (1 / 5)) + env.sin (lon * (3 / 10))|)

/-- Sample emitted by generateMockWindData at grid position (lon, lat). -/
def mkWindPoint (env : Env) (lon lat : ℚ) : WindPoint :=
  { lon := lon, lat := lat
    direction := (windFormula env lon lat).1
    speed := (windFormula env lon lat).2 }

/-- Safety limit of generateMockWindData on the number of emitted
samples. -/
def safetyLimit : ℕ := 500

/-- Inner (longitude) loop of generateMockWindData.  The source loop can
iterate forever only by pushing a sample each time, so it is bounded by
the safety cap; a structural fuel argument makes the definition
executable, with none meaning the fuel ran out.  The returned Bool
records whether the loop exited through the early return taken when the
cap is reached.  The accumulator is kept reversed (samples are consed)
and reversed once at the end of the outer loop. -/
def mockInner (env : Env) (lat east lonStep : ℚ) :
    ℕ → ℚ → ℕ → List WindPoint → Option (List WindPoint × ℕ × Bool)
  | 0, _, _, _ => none
  | fuel + 1, lon, count, acc =>
    if lon ≤ east then
      if safetyLimit ≤ count then some (acc, count, true)
      else
        mockInner env lat east lonStep fuel (lon + lonStep) (count + 1)
          (mkWindPoint env lon lat :: acc)
    else some (acc, count, false)

/-- Outer (latitude) loop of generateMockWindData.  This loop genuinely
diverges for some degenerate inputs (for example south = north together
with west > east, where no sample is ever pushed), so it takes explicit
fuel, one unit per latitude row; each row hands its incoming fuel to the
inner loop, so a single sufficiently large fuel serves both loops. -/
def mockOuter (env : Env) (north west east lonStep latStep : ℚ) :
    ℕ → ℚ → ℕ → List WindPoint → Option (List WindPoint)
  | 0, _, _, _ => none
  | fuel + 1, lat, count, acc =>
    if lat ≤ north then
      match mockInner env lat east lonStep (fuel + 1) west count acc with
      | none => none
      | some (acc', _, true) => some acc'.reverse
      | some (acc', count', false) =>
          mockOuter env north west east lonStep latStep fuel (lat + latStep) count' acc'
    else some acc.reverse

/-- generateMockWindData of mockWindData.ts: a latitude-major,
longitude-minor grid of wind samples over the given bounds, with the
requested density clamped to 30 points per axis and the total number of
samples capped at 500. -/
def generateMockWindData (env : Env) (fuel : ℕ) (b : Bounds) (density : ℚ) :
    Option (List WindPoint) :=
  let effectiveDensity := min density 30
  let lonStep := (b.east - b.west) / effectiveDensity
  let latStep := (b.north - b.south) / effectiveDensity
  mockOuter env b.north b.west b.east lonStep latStep fuel b.south 0 []

/-- Squared Euclidean distance in geographic coordinates between a wind
sample and a query point, as computed by the nearest-sample scans
(dx * dx + dy * dy). -/
def sqDist (p : WindPoint) (lng lat : ℚ) : ℚ :=
  (p.lon - lng) * (p.lon - lng) + (p.lat - lat) * (p.lat - lat)

/-- Number.MAX_VALUE, the exact value of the largest finite IEEE-754
double, used by map.tsx (and the composite layer) as the initial value of
the running minimum distance in the nearest-sample scans. -/
def maxValue : ℚ := (2 ^ 53 - 1) * 2 ^ 971

/-- Placeholder wind point standing for the JavaScript value of
windData[0] on an empty array (undefined); the scans of map.tsx only run
after a nonempty-field guard, so it is never observable there. -/
def undefinedWindPoint : WindPoint := { lon := 0, lat := 0, direction := 0, speed := 0 }

/-- Scan body shared by the nearest-sample lookups of map.tsx and the
composite layer: a linear scan over the samples keeping the current best
sample and its squared distance, updating on strict improvement. -/
def findClosestGo (lng lat : ℚ) : List WindPoint → WindPoint → ℚ → WindPoint
  | [], best, _ => best
  | p :: rest, best, minD =>
    let d := sqDist p lng lat
    if d < minD then findClosestGo lng lat rest p d
    else findClosestGo lng lat rest best minD

/-- Nearest-sample lookup of map.tsx createWindParticles and
updateParticles (the same scan is inlined at each use site in the
source): the best sample starts as windData[0] and the running minimum
starts at Number.MAX_VALUE; distances are squared, no square root is
taken. -/
def findClosest (windData : List WindPoint) (lng lat : ℚ) : WindPoint :=
  findClosestGo lng lat windData (windData.headD undefinedWindPoint) maxValue

/-- Scan body of the nearest-sample lookup of mockWindData.ts: the best
sample starts as null (modelled by none) with distance Infinity, the
compared distances go through Math.sqrt, and the state carries the best
sample together with its (square-rooted) distance. -/
def findClosestSqrtGo (env : Env) (lng lat : ℚ) :
    List WindPoint → Option (WindPoint × ℚ) → Option (WindPoint × ℚ)
  | [], st => st
  | p :: rest, st =>
    let d := env.sqrt (sqDist p lng lat)
    match st with
    | none => findClosestSqrtGo env lng lat rest (some (p, d))
    | some (b, bd) =>
      if d < bd then findClosestSqrtGo env lng lat rest (some (p, d))
      else findClosestSqrtGo env lng lat rest (some (b, bd))

/-- Nearest-sample lookup of mockWindData.ts generateWindParticles and
updateWindParticles (inlined at each use site in the source). -/
def findClosestSqrt (env : Env) (windData : List WindPoint) (lng lat : ℚ) :
    Option WindPoint :=
  (findClosestSqrtGo env lng lat windData none).map Prod.fst

/-- Fixed Southeast-Asia region limit of map.tsx. -/
def southeastAsiaBounds : Bounds :=
  { west := 92, south := -11, east := 141, north := 57 / 2 }

/-- isInSoutheastAsia of map.tsx: membership of a geographic point in the
fixed region bounds. -/
def isInSoutheastAsia (lng lat : ℚ) : Prop :=
  southeastAsiaBounds.west ≤ lng ∧ lng ≤ southeastAsiaBounds.east ∧
    southeastAsiaBounds.south ≤ lat ∧ lat ≤ southeastAsiaBounds.north

instance (lng lat : ℚ) : Decidable (isInSoutheastAsia lng lat) :=
  instDecidableAnd

/-- Map a list left to right while threading the PRNG counter, modelling
a JavaScript Array.map whose callback consumes Math.random draws. -/
def mapRand (f : ℕ → α → β × ℕ) : ℕ → List α → List β × ℕ
  | k, [] => ([], k)
  | k, a :: as =>
    let (b, k') := f k a
    let (bs, k'') := mapRand f k' as
    (b :: bs, k'')

namespace MockWind

/-- WindParticle of mockWindData.ts: screen position in pixels, age and
maximum age in frames, speed in pixels per frame, direction in radians. -/
structure Particle where
  x : ℚ
  y : ℚ
  age : ℚ
  maxAge : ℚ
  speed : ℚ
  direction : ℚ
deriving DecidableEq, Repr

/-- Body of one spawn iteration of generateWindParticles: draw a random
screen position, unproject it, look up the nearest sample, and build the
particle (skipped when the lookup finds nothing, which happens exactly on
an empty field). -/
def spawnOne (env : Env) (windData : List WindPoint) (width height : ℚ) (k : ℕ) :
    Option Particle × ℕ :=
  let x := env.rand k * width
  let y := env.rand (k + 1) * height
  let ll := env.unproject (x, y)
  match findClosestSqrt env windData ll.1 ll.2 with
  | none => (none, k + 2)
  | some cw =>
    let maxAge := 50 + env.rand (k + 2) * 50
    (some { x := x, y := y
            age := env.rand (k + 3) * maxAge
            maxAge := maxAge
            direction := cw.direction
            speed := cw.speed * (3 / 2) }, k + 4)

/-- generateWindParticles of mockWindData.ts: count spawn attempts, each
producing at most one particle. -/
def generateWindParticles (env : Env) (windData : List WindPoint) (width height : ℚ) :
    ℕ → ℕ → List Particle × ℕ
  | 0, k => ([], k)
  | n + 1, k =>
    let (p, k') := spawnOne env windData width height k
    let (ps, k'') := generateWindParticles env windData width height n k'
    match p with
    | none => (ps, k'')
    | some particle => (particle :: ps, k'')

/-- Per-particle body of updateWindParticles of mockWindData.ts: move by
(cos dir, sin dir) * speed * 2, increment age, and when the particle has
expired or left the screen rectangle re-seed it at a fresh random
position with age 0 (keeping the moved particle when the nearest-sample
lookup finds nothing). -/
def updateOne (env : Env) (windData : List WindPoint) (width height : ℚ)
    (k : ℕ) (p : Particle) : Particle × ℕ :=
  let x := p.x + env.cos p.direction * p.speed * 2
  let y := p.y + env.sin p.direction * p.speed * 2
  let age := p.age + 1
  if age ≥ p.maxAge ∨ x < 0 ∨ x > width ∨ y < 0 ∨ y > height then
    let nx := env.rand k * width
    let ny := env.rand (k + 1) * height
    let ll := env.unproject (nx, ny)
    match findClosestSqrt env windData ll.1 ll.2 with
    | some cw =>
      ({ x := nx, y := ny, age := 0
         maxAge := 50 + env.rand (k + 2) * 50
         direction := cw.direction
         speed := cw.speed * (3 / 2) }, k + 3)
    | none => ({ p with x := x, y := y, age := age }, k + 2)
  else ({ p with x := x, y := y, age := age }, k)

/-- updateWindParticles of mockWindData.ts: one frame of advection over
the whole population, a map over the particle array. -/
def updateWindParticles (env : Env) (windData : List WindPoint) (width height : ℚ)
    (k : ℕ) (particles : List Particle) : List Particle × ℕ :=
  mapRand (updateOne env windData width height) k particles

end MockWind

namespace CanvasMap

/-- WindParticle of map.tsx: both a screen position in pixels and the
matching geographic position, plus age, lifetime, speed and direction. -/
structure Particle where
  x : ℚ
  y : ℚ
  lng : ℚ
  lat : ℚ
  age : ℚ
  maxAge : ℚ
  speed : ℚ
  direction : ℚ
deriving DecidableEq, Repr

/-- Build the particle produced by map.tsx at an accepted spawn position:
age 0, random lifetime in [60, 120), nearest-sample speed scaled by 1.5
and nearest-sample direction (the PRNG counter on entry is the index of
the lifetime draw). -/
def acceptedParticle (env : Env) (windData : List WindPoint)
    (x y lng lat : ℚ) (k : ℕ) (age : ℚ) : Particle :=
  let cw := findClosest windData lng lat
  { x := x, y := y, lng := lng, lat := lat
    age := age
    maxAge := 60 + env.rand k * 60
    speed := cw.speed * (3 / 2)
    direction := cw.direction }

/-- Spawn loop of createWindParticles of map.tsx: one attempt per
iteration (the source increments attempts at the top of each iteration;
the fuel argument is the remaining attempt budget), accepting a particle
only when the unprojected random screen point lies in Southeast Asia and
counting the attempts actually made.  The accumulator is kept reversed.
The result pairs the spawned population with the number of attempts. -/
def createGo (env : Env) (windData : List WindPoint) (width height : ℚ) (count : ℕ) :
    ℕ → ℕ → ℕ → List Particle → List Particle × ℕ
  | 0, attempts, _, acc => (acc.reverse, attempts)
  | budget + 1, attempts, k, acc =>
    if acc.length < count then
      let x := env.rand k * width
      let y := env.rand (k + 1) * height
      match env.unprojectE (x, y) with
      | none => createGo env windData width height count budget (attempts + 1) (k + 2) acc
      | some (lng, lat) =>
        if isInSoutheastAsia lng lat then
          let maxAge := 60 + env.rand (k + 2) * 60
          let cw := findClosest windData lng lat
          createGo env windData width height count budget (attempts + 1) (k + 4)
            ({ x := x, y := y, lng := lng, lat := lat
               age := env.rand (k + 3) * maxAge
               maxAge := maxAge
               speed := cw.speed * (3 / 2)
               direction := cw.direction } :: acc)
        else createGo env windData width height count budget (attempts + 1) (k + 2) acc
    else (acc.reverse, attempts)

/-- createWindParticles of map.tsx: guarded on a nonempty wind field (the
source also guards on the map handle, which the embedding assumes
present), then the bounded-retry spawn loop with budget count * 3.  The
second component is the number of attempts made. -/
def createWindParticles (env : Env) (windData : List WindPoint)
    (width height : ℚ) (count : ℕ) (k : ℕ) : List Particle × ℕ :=
  if windData = [] then ([], 0)
  else createGo env windData width height count (count * 3) 0 k []

/-- Bounded respawn retry loop of updateParticles of map.tsx (at most 10
attempts): draw a random screen point, unproject it, and accept it only
if it lies in Southeast Asia; when the budget is exhausted, fall back to
a uniform random geographic point inside the region bounds, projecting it
to the screen, and if even that projection fails keep the old (already
moved) particle with its age reset to 0. -/
def retryLoop (env : Env) (windData : List WindPoint) (width height : ℚ) :
    ℕ → ℕ → Particle → Particle × ℕ
  | 0, k, p =>
    let nlng := southeastAsiaBounds.west +
      env.rand k * (southeastAsiaBounds.east - southeastAsiaBounds.west)
    let nlat := southeastAsiaBounds.south +
      env.rand (k + 1) * (southeastAsiaBounds.north - southeastAsiaBounds.south)
    match env.projectE (nlng, nlat) with
    | some (nx, ny) => (acceptedParticle env windData nx ny nlng nlat (k + 2) 0, k + 3)
    | none => ({ p with age := 0 }, k + 2)
  | n + 1, k, p =>
    let nx := env.rand k * width
    let ny := env.rand (k + 1) * height
    match env.unprojectE (nx, ny) with
    | none => retryLoop env windData width height n (k + 2) p
    | some (lng, lat) =>
      if isInSoutheastAsia lng lat then
        (acceptedParticle env windData nx ny lng lat (k + 2) 0, k + 3)
      else retryLoop env windData width height n (k + 2) p

/-- Per-particle body of updateParticles of map.tsx: move by
(cos dir, sin dir) * speed * 0.3, increment age, recompute the
geographic position (an unprojection failure here is caught by the outer
try/catch of the source, which returns the already-moved particle), and
when the particle expired, left the screen rectangle by more than the
20-pixel margin, or left Southeast Asia, respawn it through the bounded
retry loop. -/
def updateOne (env : Env) (windData : List WindPoint) (width height : ℚ)
    (k : ℕ) (p : Particle) : Particle × ℕ :=
  let x := p.x + env.cos p.direction * p.speed * (3 / 10)
  let y := p.y + env.sin p.direction * p.speed * (3 / 10)
  let age := p.age + 1
  match env.unprojectE (x, y) with
  | none => ({ p with x := x, y := y, age := age }, k)
  | some (lng, lat) =>
    let p1 : Particle := { p with x := x, y := y, lng := lng, lat := lat, age := age }
    if age ≥ p.maxAge ∨ x < -20 ∨ x > width + 20 ∨ y < -20 ∨ y > height + 20 ∨
        ¬ isInSoutheastAsia lng lat then
      retryLoop env windData width height 10 k p1
    else (p1, k)

/-- updateParticles of map.tsx: guarded on a nonempty wind field (the
source returns the population unchanged when the field is empty or the
map handle is absent), then one frame of advection as a map over the
population. -/
def updateParticles (env : Env) (windData : List WindPoint) (width height : ℚ)
    (k : ℕ) (particles : List Particle) : List Particle × ℕ :=
  if windData = [] then (particles, k)
  else mapRand (updateOne env windData width height) k particles

end CanvasMap

namespace DeckLayer

/-- ParticleType of the composite deck.gl layer: geographic position,
direction, speed, age, lifetime, pixel size and RGBA color. -/
structure Particle where
  lon : ℚ
  lat : ℚ
  direction : ℚ
  speed : ℚ
  age : ℚ
  maxAge : ℚ
  size : ℚ
  r : ℚ
  g : ℚ
  b : ℚ
  a : ℚ
deriving DecidableEq, Repr

/-- Fresh particle built by the composite layer at a random position
inside the bounds, from the nearest wind sample (used both by
generateParticles and by the recycle branch of updateParticles, with the
age field differing between the two call sites). -/
def freshParticle (windData : List WindPoint) (lon lat age maxAge : ℚ) : Particle :=
  let cw := findClosest windData lon lat
  let c := getWindColor cw.speed
  { lon := lon, lat := lat
    direction := cw.direction
    speed := cw.speed
    age := age
    maxAge := maxAge
    size := 6 + cw.speed * 15
    r := (c.1 : ℚ), g := (c.2.1 : ℚ), b := (c.2.2 : ℚ), a := 200 }

/-- generateParticles of the composite layer: particleCount particles at
uniform random positions inside the bounds, each with a random lifetime
in [50, 100) and a random initial age in [0, maxAge). -/
def generateParticles (env : Env) (windData : List WindPoint) (bounds : Bounds) :
    ℕ → ℕ → List Particle × ℕ
  | 0, k => ([], k)
  | n + 1, k =>
    let lon := bounds.west + env.rand k * (bounds.east - bounds.west)
    let lat := bounds.south + env.rand (k + 1) * (bounds.north - bounds.south)
    let maxAge := 50 + env.rand (k + 2) * 50
    let p := freshParticle windData lon lat (env.rand (k + 3) * maxAge) maxAge
    let (ps, k') := generateParticles env windData bounds n (k + 4)
    (p :: ps, k')

/-- Per-particle body of updateParticles of the composite layer:
increment age; an expired particle is recycled at a random position with
age 0; otherwise the particle moves by (cos dir, sin dir) * speed *
particleSpeed, and a move that leaves the bounds keeps the old position
but sets age to maxAge so that the next frame recycles it; an in-bounds
move updates the position and the alpha channel from the age. -/
def updateOne (env : Env) (windData : List WindPoint) (bounds : Bounds)
    (particleSpeed : ℚ) (k : ℕ) (p : Particle) : Particle × ℕ :=
  let age := p.age + 1
  if age ≥ p.maxAge then
    let lon := bounds.west + env.rand k * (bounds.east - bounds.west)
    let lat := bounds.south + env.rand (k + 1) * (bounds.north - bounds.south)
    (freshParticle windData lon lat 0 (50 + env.rand (k + 2) * 50), k + 3)
  else
    let speed := p.speed * particleSpeed
    let x := p.lon + env.cos p.direction * speed
    let y := p.lat + env.sin p.direction * speed
    if x < bounds.west ∨ x > bounds.east ∨ y < bounds.south ∨ y > bounds.north then
      ({ p with age := p.maxAge }, k)
    else
      ({ p with lon := x, lat := y, age := age, a := 200 * (1 - age / p.maxAge) }, k)

/-- updateParticles of the composite layer: when animation is off or the
population is empty the population is returned unchanged, otherwise one
frame of advection as a map over the population. -/
def updateParticles (env : Env) (windData : List WindPoint) (bounds : Bounds)
    (particleSpeed : ℚ) (animate : Bool) (k : ℕ) (particles : List Particle) :
    List Particle × ℕ :=
  if ¬ animate ∨ particles = [] then (particles, k)
  else mapRand (updateOne env windData bounds particleSpeed) k particles

end DeckLayer

namespace WebGL

/-- Result of setNumParticles of WebGLWindLayer.tsx: the particle-state
resolution, the resulting particle count, and the sides of the two
particle-state textures allocated from it. -/
structure ParticleStateSetup where
  particleStateResolution : ℕ
  numParticles : ℕ
  texture0Side : ℕ
  texture1Side : ℕ
deriving DecidableEq, Repr

/-- Embedding of Math.ceil (Math.sqrt n) for a natural request under
exact real arithmetic: the square root of a perfect square is exact, and
otherwise the ceiling is one more than the integer square root. -/
def ceilSqrtNat (n : ℕ) : ℕ :=
  if Nat.sqrt n * Nat.sqrt n = n then Nat.sqrt n else Nat.sqrt n + 1

/-- setNumParticles of WebGLWindLayer.tsx: rounds the requested count up
through a square particle-state texture of side ceil (sqrt numParticles),
storing side * side as the internal particle count and allocating both
ping-pong state textures with that side. -/
def setNumParticles (numParticles : ℕ) : ParticleStateSetup :=
  let particleRes := ceilSqrtNat numParticles
  { particleStateResolution := particleRes
    numParticles := particleRes * particleRes
    texture0Side := particleRes
    texture1Side := particleRes }

end WebGL

/- Helper lemmas. -/

lemma mapRand_length (f : ℕ → α → β × ℕ) :
    ∀ (k : ℕ) (l : List α), ((mapRand f k l).1).length = l.length := by
  intro k l
  induction l generalizing k with
  | nil => simp [mapRand]
  | cons a as ih => simp [mapRand, ih]

lemma mapRand_forall₂ (R : α → β → Prop) (f : ℕ → α → β × ℕ)
    (h : ∀ k a, R a (f k a).1) :
    ∀ (k : ℕ) (l : List α), List.Forall₂ R l (mapRand f k l).1 := by
  intro k l
  induction l generalizing k with
  | nil => simp [mapRand]
  | cons a as ih => simpa [mapRand] using List.Forall₂.cons (h k a) (ih _)

/-- Claim C1: for every particle population, one advection step returns a
population of exactly the same length as its input, in all three
variants: the canonical updateWindParticles of mockWindData.ts, the
canvas map updateParticles of map.tsx, and the composite layer
updateParticles; no particle is added or dropped. -/
theorem C1_population_size_invariant :
    (∀ (env : Env) (wd : List WindPoint) (w h : ℚ) (k : ℕ) (ps : List MockWind.Particle),
       ((MockWind.updateWindParticles env wd w h k ps).1).length = ps.length)
    ∧ (∀ (env : Env) (wd : List WindPoint) (w h : ℚ) (k : ℕ) (ps : List CanvasMap.Particle),
       ((CanvasMap.updateParticles env wd w h k ps).1).length = ps.length)
    ∧ (∀ (env : Env) (wd : List WindPoint) (b : Bounds) (s : ℚ) (animate : Bool)
        (k : ℕ) (ps : List DeckLayer.Particle),
       ((DeckLayer.updateParticles env wd b s animate k ps).1).length = ps.length) := by
  refine ⟨?_, ?_, ?_⟩
  · intro env wd w h k ps
    exact mapRand_length _ k ps
  · intro env wd w h k ps
    unfold CanvasMap.updateParticles
    split
    · rfl
    · exact mapRand_length _ k ps
  · intro env wd b s animate k ps
    unfold DeckLayer.updateParticles
    split
    · rfl
    · exact mapRand_length _ k ps

/-- Claim C7: getWindColor is piecewise-defined on the speed bands
[0, 0.3), [0.3, 0.6) and [0.6, ∞): a fixed constant color on the first
band and a color whose green channel is a rounded affine function of
speed on the other two; getWindColor 0.1 is the constant light-wind
color, and the green channel at 0.9 is below the green channel at 0.6. -/
theorem C7_color_ramp :
    (∀ s : ℚ, 0 ≤ s → s < 3 / 10 → getWindColor s = (30, 144, 255))
    ∧ (∀ s : ℚ, 3 / 10 ≤ s → s < 3 / 5 →
        getWindColor s = (255, jsRound (200 + s * 55), 0))
    ∧ (∀ s : ℚ, 3 / 5 ≤ s → getWindColor s = (255, jsRound (165 - s * 165), 0))
    ∧ getWindColor (1 / 10) = (30, 144, 255)
    ∧ (getWindColor (9 / 10)).2.1 < (getWindColor (3 / 5)).2.1 := by
  have h1 : getWindColor (1 / 10) = (30, 144, 255) := by
    rw [getWindColor, if_pos (by norm_num)]
  have h9 : getWindColor (9 / 10) = (255, jsRound (165 - (9 / 10) * 165), 0) := by
    rw [getWindColor, if_neg (by norm_num), if_neg (by norm_num)]
  have h6 : getWindColor (3 / 5) = (255, jsRound (165 - (3 / 5) * 165), 0) := by
    rw [getWindColor, if_neg (by norm_num), if_neg (by norm_num)]
  have hv9 : jsRound (165 - (9 / 10 : ℚ) * 165) = 17 := by
    rw [jsRound]; norm_num
  have hv6 : jsRound (165 - (3 / 5 : ℚ) * 165) = 66 := by
    rw [jsRound]; norm_num
  refine ⟨?_, ?_, ?_, h1, ?_⟩
  · intro s _ h2
    rw [getWindColor, if_pos h2]
  · intro s h1 h2
    rw [getWindColor, if_neg (by linarith), if_pos h2]
  · intro s h1
    rw [getWindColor, if_neg (by linarith), if_neg (by linarith)]
  · rw [h9, h6]
    simp only [hv9, hv6]
    norm_num

/-- Concrete instantiation of claim C7 at speed 0.4, in the middle
band. -/
theorem C7_color_ramp_witness :
    ((3 : ℚ) / 10 ≤ 2 / 5 ∧ (2 : ℚ) / 5 < 3 / 5)
    ∧ getWindColor (2 / 5) = (255, jsRound (200 + (2 / 5) * 55), 0) :=
  ⟨⟨by norm_num, by norm_num⟩, C7_color_ramp.2.1 (2 / 5) (by norm_num) (by norm_num)⟩

/-- Claim C10: getWindColor does not clamp its output to the RGB byte
range: at speed 1.2 (inside the roughly [0, 1.2] speed domain stated by
the spec) the green channel is round (165 - 1.2 * 165) = -33, which is
negative. -/
theorem C10_green_negative :
    getWindColor (6 / 5) = (255, -33, 0) ∧ (getWindColor (6 / 5)).2.1 < 0 := by
  have h : getWindColor (6 / 5) = (255, -33, 0) := by
    rw [getWindColor, if_neg (by norm_num), if_neg (by norm_num), jsRound]
    norm_num
  exact ⟨h, by rw [h]; norm_num⟩

/-- Claim C8: setNumParticles of the GPU shader variant sets the internal
particle count to the square of ceil (sqrt numParticles), the smallest
perfect square at least the request, and allocates both square
particle-state textures with side ceil (sqrt numParticles). -/
theorem C8_gpu_square_count (n : ℕ) (_hn : 1 ≤ n) :
    (WebGL.setNumParticles n).particleStateResolution = WebGL.ceilSqrtNat n
    ∧ (WebGL.setNumParticles n).numParticles = WebGL.ceilSqrtNat n * WebGL.ceilSqrtNat n
    ∧ (WebGL.setNumParticles n).texture0Side = WebGL.ceilSqrtNat n
    ∧ (WebGL.setNumParticles n).texture1Side = WebGL.ceilSqrtNat n
    ∧ n ≤ (WebGL.setNumParticles n).numParticles
    ∧ (∀ m : ℕ, n ≤ m * m → (WebGL.setNumParticles n).numParticles ≤ m * m) := by
  refine ⟨rfl, rfl, rfl, rfl, ?_, ?_⟩
  · show n ≤ WebGL.ceilSqrtNat n * WebGL.ceilSqrtNat n
    unfold WebGL.ceilSqrtNat
    split
    · next heq => exact heq.ge
    · next => exact (Nat.lt_succ_sqrt n).le
  · intro m hm
    show WebGL.ceilSqrtNat n * WebGL.ceilSqrtNat n ≤ m * m
    unfold WebGL.ceilSqrtNat
    split
    · next heq => rw [heq]; exact hm
    · next hne =>
      have hlt : Nat.sqrt n < m := by
        by_contra hle
        push_neg at hle
        have h1 : m * m ≤ Nat.sqrt n * Nat.sqrt n := Nat.mul_le_mul hle hle
        have h2 : Nat.sqrt n * Nat.sqrt n ≤ n := Nat.sqrt_le n
        have h3 : n = m * m := le_antisymm hm (h1.trans h2)
        have h4 : Nat.sqrt n = m := by rw [h3, Nat.sqrt_eq]
        exact hne (by omega)
      exact Nat.mul_le_mul hlt hlt

/-- Concrete instantiation of claim C8 at a request of 5 particles: the
resolution is 3 and the internal count is 9, the smallest perfect square
at least 5. -/
theorem C8_gpu_square_count_witness :
    (WebGL.setNumParticles 5).numParticles = WebGL.ceilSqrtNat 5 * WebGL.ceilSqrtNat 5
    ∧ 5 ≤ (WebGL.setNumParticles 5).numParticles
    ∧ (WebGL.setNumParticles 5).numParticles ≤ 3 * 3 :=
  ⟨(C8_gpu_square_count 5 (by decide)).2.1,
   (C8_gpu_square_count 5 (by decide)).2.2.2.2.1,
   (C8_gpu_square_count 5 (by decide)).2.2.2.2.2 3 (by decide)⟩

lemma createGo_spec (env : Env) (wd : List WindPoint) (w h : ℚ) (count : ℕ) :
    ∀ (budget attempts k : ℕ) (acc : List CanvasMap.Particle),
    acc.length ≤ count →
    (CanvasMap.createGo env wd w h count budget attempts k acc).1.length ≤ count
    ∧ (CanvasMap.createGo env wd w h count budget attempts k acc).2 ≤ attempts + budget
    ∧ ((CanvasMap.createGo env wd w h count budget attempts k acc).1.length < count →
       (CanvasMap.createGo env wd w h count budget attempts k acc).2 = attempts + budget) := by
  intro budget
  induction budget with
  | zero =>
    intro attempts k acc hacc
    simpa [CanvasMap.createGo] using hacc
  | succ b ih =>
    intro attempts k acc hacc
    simp only [CanvasMap.createGo]
    split
    · next hlt =>
      split
      · obtain ⟨h1, h2, h3⟩ := ih (attempts + 1) (k + 2) acc hacc
        exact ⟨h1, by omega, fun hl => by have := h3 hl; omega⟩
      · split
        · obtain ⟨h1, h2, h3⟩ := ih (attempts + 1) (k + 4) (_ :: acc) (by simpa using hlt)
          exact ⟨h1, by omega, fun hl => by have := h3 hl; omega⟩
        · obtain ⟨h1, h2, h3⟩ := ih (attempts + 1) (k + 2) acc hacc
          exact ⟨h1, by omega, fun hl => by have := h3 hl; omega⟩
    · next hlt =>
      refine ⟨by simpa using hacc, by omega, fun hl => ?_⟩
      simp only [List.length_reverse] at hl
      omega

/-- Claim C4: the spawn routine of map.tsx makes at most count * 3
placement attempts (one per loop iteration), never returns more than
count particles, and when the field is nonempty and fewer than count
particles were accepted it is precisely because the whole attempt budget
was spent, rather than looping forever. -/
theorem C4_spawn_budget (env : Env) (wd : List WindPoint) (w h : ℚ) (count k : ℕ) :
    (CanvasMap.createWindParticles env wd w h count k).1.length ≤ count
    ∧ (CanvasMap.createWindParticles env wd w h count k).2 ≤ count * 3
    ∧ (wd ≠ [] → (CanvasMap.createWindParticles env wd w h count k).1.length < count →
       (CanvasMap.createWindParticles env wd w h count k).2 = count * 3) := by
  unfold CanvasMap.createWindParticles
  split
  · next hwd => exact ⟨by simp, by simp, fun hw => absurd hwd hw⟩
  · next hwd =>
    obtain ⟨h1, h2, h3⟩ := createGo_spec env wd w h count (count * 3) 0 k [] (by simp)
    exact ⟨h1, by omega, fun _ hl => by have := h3 hl; omega⟩

/-- Concrete instantiation of claim C4: with a constant-zero random
source every attempt lands outside Southeast Asia, so a request for 2
particles spends its whole budget of 6 attempts and returns an empty
population. -/
theorem C4_spawn_budget_witness :
    (CanvasMap.createWindParticles trivEnv [⟨0, 0, 0, 0⟩] 100 100 2 0).2 = 2 * 3 :=
  (C4_spawn_budget trivEnv [⟨0, 0, 0, 0⟩] 100 100 2 0).2.2 (by simp)
    (by norm_num [CanvasMap.createWindParticles, CanvasMap.createGo, trivEnv,
      isInSoutheastAsia, southeastAsiaBounds])

lemma mockInner_inv (env : Env) (lat east lonStep : ℚ) (P : WindPoint → Prop)
    (hP : ∀ lo, P (mkWindPoint env lo lat)) :
    ∀ (fuel : ℕ) (lon : ℚ) (count : ℕ) (acc acc' : List WindPoint)
      (count' : ℕ) (flag : Bool),
    count = acc.length → count ≤ safetyLimit → (∀ p ∈ acc, P p) →
    mockInner env lat east lonStep fuel lon count acc = some (acc', count', flag) →
    count' = acc'.length ∧ count' ≤ safetyLimit ∧ (∀ p ∈ acc', P p) := by
  intro fuel
  induction fuel with
  | zero =>
    intro lon count acc acc' count' flag _ _ _ h
    simp [mockInner] at h
  | succ f ih =>
    intro lon count acc acc' count' flag hc hle hPacc h
    simp only [mockInner] at h
    split at h
    · split at h
      · simp only [Option.some.injEq, Prod.mk.injEq] at h
        obtain ⟨rfl, rfl, rfl⟩ := h
        exact ⟨hc, hle, hPacc⟩
      · next hcap =>
        refine ih _ _ _ _ _ _ (by simp [hc]) (by omega) ?_ h
        intro p hp
        rcases List.mem_cons.mp hp with hp | hp
        · exact hp ▸ hP lon
        · exact hPacc p hp
    · simp only [Option.some.injEq, Prod.mk.injEq] at h
      obtain ⟨rfl, rfl, rfl⟩ := h
      exact ⟨hc, hle, hPacc⟩

lemma mockOuter_inv (env : Env) (north west east lonStep latStep : ℚ)
    (P : WindPoint → Prop) (hP : ∀ lo la, P (mkWindPoint env lo la)) :
    ∀ (fuel : ℕ) (lat : ℚ) (count : ℕ) (acc out : List WindPoint),
    count = acc.length → count ≤ safetyLimit → (∀ p ∈ acc, P p) →
    mockOuter env north west east lonStep latStep fuel lat count acc = some out →
    out.length ≤ safetyLimit ∧ (∀ p ∈ out, P p) := by
  intro fuel
  induction fuel with
  | zero =>
    intro lat count acc out _ _ _ h
    simp [mockOuter] at h
  | succ f ih =>
    intro lat count acc out hc hle hPacc h
    simp only [mockOuter] at h
    split at h
    · split at h
      · exact absurd h (by simp)
      · next acc1 count1 heq =>
        simp only [Option.some.injEq] at h
        obtain ⟨h1, h2, h3⟩ :=
          mockInner_inv env lat east lonStep P (fun lo => hP lo lat)
            _ _ _ _ _ _ _ hc hle hPacc heq
        subst h
        constructor
        · simpa using h1 ▸ h2
        · intro p hp
          exact h3 p (List.mem_reverse.mp hp)
      · next acc1 count1 heq =>
        obtain ⟨h1, h2, h3⟩ :=
          mockInner_inv env lat east lonStep P (fun lo => hP lo lat)
            _ _ _ _ _ _ _ hc hle hPacc heq
        exact ih _ _ _ _ h1 h2 h3 h
    · simp only [Option.some.injEq] at h
      subst h
      constructor
      · simpa using hc ▸ hle
      · intro p hp
        exact hPacc p (List.mem_reverse.mp hp)

/-- Claim C2: for every bounds, density and fuel, a wind field returned
by generateMockWindData holds at most 500 samples; reaching the cap makes
the synthesizer return the partial field rather than raise. -/
theorem C2_field_cap (env : Env) (fuel : ℕ) (b : Bounds) (density : ℚ)
    (out : List WindPoint)
    (h : generateMockWindData env fuel b density = some out) :
    out.length ≤ 500 := by
  simp only [generateMockWindData] at h
  exact (mockOuter_inv env b.north b.west b.east _ _ (fun _ => True)
    (fun _ _ => trivial) fuel b.south 0 [] out rfl (by simp [safetyLimit])
    (by simp) h).1

lemma genUnitSquareEval :
    generateMockWindData trivEnv 5 ⟨0, 0, 1, 1⟩ 1 =
      some [⟨0, 0, 2 / 5, 1 / 5⟩, ⟨1, 0, 2 / 5, 1 / 5⟩, ⟨0, 1, 2 / 5, 1 / 5⟩,
        ⟨1, 1, 2 / 5, 1 / 5⟩] := by
  norm_num [generateMockWindData, mockOuter, mockInner, mkWindPoint,
    windFormula, trivEnv, safetyLimit, min_def]

/-- Concrete instantiation of claim C2: the four-sample field over the
unit square at density 1 respects the cap. -/
theorem C2_field_cap_witness :
    (([⟨0, 0, 2 / 5, 1 / 5⟩, ⟨1, 0, 2 / 5, 1 / 5⟩, ⟨0, 1, 2 / 5, 1 / 5⟩,
       ⟨1, 1, 2 / 5, 1 / 5⟩] : List WindPoint)).length ≤ 500 :=
  C2_field_cap trivEnv 5 ⟨0, 0, 1, 1⟩ 1 _ genUnitSquareEval

lemma mkWindPoint_speed (env : Env) (lo la : ℚ) :
    (1 / 5 ≤ (mkWindPoint env lo la).speed ∧ (mkWindPoint env lo la).speed ≤ 1)
    ∧ (14 < (mkWindPoint env lo la).lat →
       3 / 10 ≤ (mkWindPoint env lo la).speed ∧ (mkWindPoint env lo la).speed ≤ 3 / 5) := by
  have hlat : (mkWindPoint env lo la).lat = la := rfl
  by_cases hla : la > 14
  · have hs : (mkWindPoint env lo la).speed =
        3 / 10 + 3 / 10 * |env.sin (la * (1 / 10) + lo * (1 / 5))| := by
      simp [mkWindPoint, windFormula, hla]
    have h0 := abs_nonneg (env.sin (la * (1 / 10) + lo * (1 / 5)))
    have h1 := env.sin_abs_le (la * (1 / 10) + lo * (1 / 5))
    rw [hs]
    exact ⟨⟨by linarith, by linarith⟩, fun _ => ⟨by linarith, by linarith⟩⟩
  · have hs : (mkWindPoint env lo la).speed =
        1 / 5 + 2 / 5 * |env.sin (la * (1 / 5)) + env.sin (lo * (3 / 10))| := by
      simp [mkWindPoint, windFormula, hla]
    have h0 := abs_nonneg (env.sin (la * (1 / 5)) + env.sin (lo * (3 / 10)))
    have habs := abs_add (env.sin (la * (1 / 5))) (env.sin (lo * (3 / 10)))
    have h1 := env.sin_abs_le (la * (1 / 5))
    have h2 := env.sin_abs_le (lo * (3 / 10))
    rw [hs]
    refine ⟨⟨by linarith, by linarith⟩, fun hl => absurd (hlat ▸ hl) hla⟩

/-- Claim C9: every sample emitted by generateMockWindData has speed in
the closed interval [0.2, 1.0]; samples in the northern regime
(latitude above 14) have speed in [0.3, 0.6]. -/
theorem C9_speed_range (env : Env) (fuel : ℕ) (b : Bounds) (density : ℚ)
    (out : List WindPoint)
    (h : generateMockWindData env fuel b density = some out) :
    ∀ p ∈ out, (1 / 5 ≤ p.speed ∧ p.speed ≤ 1)
      ∧ (14 < p.lat → 3 / 10 ≤ p.speed ∧ p.speed ≤ 3 / 5) := by
  simp only [generateMockWindData] at h
  exact (mockOuter_inv env b.north b.west b.east _ _
    (fun p => (1 / 5 ≤ p.speed ∧ p.speed ≤ 1)
      ∧ (14 < p.lat → 3 / 10 ≤ p.speed ∧ p.speed ≤ 3 / 5))
    (fun lo la => mkWindPoint_speed env lo la) fuel b.south 0 [] out rfl
    (by simp [safetyLimit]) (by simp) h).2

/-- Concrete instantiation of claim C9 at the first sample of the
unit-square field. -/
theorem C9_speed_range_witness :
    (1 / 5 ≤ ((⟨0, 0, 2 / 5, 1 / 5⟩ : WindPoint)).speed
      ∧ ((⟨0, 0, 2 / 5, 1 / 5⟩ : WindPoint)).speed ≤ 1)
    ∧ (14 < ((⟨0, 0, 2 / 5, 1 / 5⟩ : WindPoint)).lat →
       3 / 10 ≤ ((⟨0, 0, 2 / 5, 1 / 5⟩ : WindPoint)).speed
         ∧ ((⟨0, 0, 2 / 5, 1 / 5⟩ : WindPoint)).speed ≤ 3 / 5) :=
  C9_speed_range trivEnv 5 ⟨0, 0, 1, 1⟩ 1 _ genUnitSquareEval
    ⟨0, 0, 2 / 5, 1 / 5⟩ (by simp)

lemma mockInner_degenerate :
    ∀ (d count : ℕ) (acc : List WindPoint) (fuel : ℕ),
    count + d = 500 → d + 1 ≤ fuel →
    mockInner trivEnv 5 10 0 fuel 10 count acc =
      some (List.replicate d (mkWindPoint trivEnv 10 5) ++ acc, 500, true) := by
  intro d
  induction d with
  | zero =>
    intro count acc fuel hc hf
    obtain ⟨f, rfl⟩ : ∃ f, fuel = f + 1 := ⟨fuel - 1, by omega⟩
    simp only [mockInner]
    rw [if_pos (le_refl (10 : ℚ)), if_pos (by simp only [safetyLimit]; omega)]
    simp
    omega
  | succ d ih =>
    intro count acc fuel hc hf
    obtain ⟨f, rfl⟩ : ∃ f, fuel = f + 1 := ⟨fuel - 1, by omega⟩
    simp only [mockInner]
    rw [if_pos (le_refl (10 : ℚ)), if_neg (by simp only [safetyLimit]; omega)]
    rw [show (10 : ℚ) + 0 = 10 by norm_num]
    rw [ih (count + 1) (mkWindPoint trivEnv 10 5 :: acc) f (by omega) (by omega)]
    simp [List.replicate_succ', List.append_assoc]

lemma mockOuter_degenerate (f : ℕ) (hf : 501 ≤ f + 1) :
    mockOuter trivEnv 5 10 10 0 0 (f + 1) 5 0 [] =
      some (List.replicate 500 (mkWindPoint trivEnv 10 5)) := by
  simp only [mockOuter]
  rw [if_pos (le_refl (5 : ℚ))]
  rw [mockInner_degenerate 500 0 [] (f + 1) (by omega) (by omega)]
  simp only [List.append_nil, List.reverse_replicate]

lemma genZeroSizeEval :
    generateMockWindData trivEnv 502 ⟨10, 5, 10, 5⟩ 15 =
      some (List.replicate 500 (mkWindPoint trivEnv 10 5)) := by
  simp only [generateMockWindData]
  rw [show ((10 : ℚ) - 10) / min 15 30 = 0 by norm_num,
    show ((5 : ℚ) - 5) / min 15 30 = 0 by norm_num]
  rw [show (502 : ℕ) = 501 + 1 from rfl]
  exact mockOuter_degenerate 501 (by omega)

/-- Claim C6, counterexample: on the zero-size bounds
(west 10, south 5, east 10, north 5) at density 15 the synthesizer does
terminate, but its field is neither empty nor a single degenerate
sample. -/
theorem C6_zero_bounds_counterexample :
    (generateMockWindData trivEnv 502 ⟨10, 5, 10, 5⟩ 15).isSome = true
    ∧ ¬ (((generateMockWindData trivEnv 502 ⟨10, 5, 10, 5⟩ 15).getD []).length = 0
        ∨ ((generateMockWindData trivEnv 502 ⟨10, 5, 10, 5⟩ 15).getD []).length = 1) := by
  rw [genZeroSizeEval]
  simp only [Option.isSome_some, Option.getD_some, List.length_replicate]
  exact ⟨trivial, by omega⟩

/-- Claim C6, amended: on zero-size bounds at density 15 both grid steps
are zero (the divisions are by the density, not zero, so no division by
zero occurs), the inner loop keeps emitting the same degenerate sample,
and the synthesizer terminates through the 500-sample safety cap,
returning 500 identical samples at position (10, 5). -/
theorem C6_zero_bounds :
    generateMockWindData trivEnv 502 ⟨10, 5, 10, 5⟩ 15 =
      some (List.replicate 500 (mkWindPoint trivEnv 10 5))
    ∧ (List.replicate 500 (mkWindPoint trivEnv 10 5)).length = 500
    ∧ ∀ p ∈ List.replicate 500 (mkWindPoint trivEnv 10 5), p.lon = 10 ∧ p.lat = 5 := by
  refine ⟨genZeroSizeEval, by rw [List.length_replicate], ?_⟩
  intro p hp
  rw [List.eq_of_mem_replicate hp]
  exact ⟨rfl, rfl⟩

/-- Concrete instantiation of claim C6 at a member of the degenerate
field: the sample sits at position (10, 5). -/
theorem C6_zero_bounds_witness :
    (mkWindPoint trivEnv 10 5).lon = 10 ∧ (mkWindPoint trivEnv 10 5).lat = 5 :=
  C6_zero_bounds.2.2 (mkWindPoint trivEnv 10 5)
    (List.mem_replicate.mpr ⟨by norm_num, rfl⟩)

lemma MockWind_updateOne_age (env : Env) (wd : List WindPoint) (w h : ℚ) (k : ℕ)
    (p : MockWind.Particle) :
    (MockWind.updateOne env wd w h k p).1.age = p.age + 1
    ∨ (MockWind.updateOne env wd w h k p).1.age = 0 := by
  simp only [MockWind.updateOne]
  split
  · split
    · right; rfl
    · left; rfl
  · left; rfl

lemma CanvasMap_retryLoop_age (env : Env) (wd : List WindPoint) (w h : ℚ) :
    ∀ (n k : ℕ) (p : CanvasMap.Particle),
    ((CanvasMap.retryLoop env wd w h n k p).1).age = 0 := by
  intro n
  induction n with
  | zero =>
    intro k p
    simp only [CanvasMap.retryLoop]
    split
    · simp [CanvasMap.acceptedParticle]
    · rfl
  | succ n ih =>
    intro k p
    simp only [CanvasMap.retryLoop]
    split
    · exact ih _ _
    · split
      · simp [CanvasMap.acceptedParticle]
      · exact ih _ _

lemma CanvasMap_updateOne_age (env : Env) (wd : List WindPoint) (w h : ℚ) (k : ℕ)
    (p : CanvasMap.Particle) :
    (CanvasMap.updateOne env wd w h k p).1.age = p.age + 1
    ∨ (CanvasMap.updateOne env wd w h k p).1.age = 0 := by
  simp only [CanvasMap.updateOne]
  split
  · left; rfl
  · split
    · right; exact CanvasMap_retryLoop_age env wd w h 10 k _
    · left; rfl

lemma DeckLayer_updateOne_age (env : Env) (wd : List WindPoint) (b : Bounds) (s : ℚ)
    (k : ℕ) (p : DeckLayer.Particle) :
    (DeckLayer.updateOne env wd b s k p).1.age = p.age + 1
    ∨ (DeckLayer.updateOne env wd b s k p).1.age = 0
    ∨ (DeckLayer.updateOne env wd b s k p).1.age = p.maxAge := by
  simp only [DeckLayer.updateOne]
  split
  · right; left; simp [DeckLayer.freshParticle]
  · split
    · right; right; rfl
    · left; rfl

/-- Claim C5, counterexample: in the composite layer variant, a particle
that steps outside the bounds has its age set to its maxAge (here the
age jumps from 0 to 50 in one frame), which is neither an increment by 1
nor a reset to 0. -/
theorem C5_age_counterexample :
    (DeckLayer.updateParticles trivEnv [⟨0, 0, 0, 0⟩] ⟨0, 0, 1, 1⟩ (3 / 400) true 0
        [⟨5, 5, 0, 1, 0, 50, 6, 30, 144, 255, 200⟩]).1 =
      [⟨5, 5, 0, 1, 50, 50, 6, 30, 144, 255, 200⟩]
    ∧ ¬ ((50 : ℚ) = 0 + 1 ∨ (50 : ℚ) = 0) := by
  constructor
  · norm_num [DeckLayer.updateParticles, mapRand, DeckLayer.updateOne, trivEnv]
  · norm_num

/-- Claim C5, amended: per advection frame, a particle age either
increments by exactly 1 or resets to 0, in the canonical and canvas map
variants; in the composite layer variant there is a third outcome, a
particle whose move leaves the bounds has its age set to maxAge so that
the next frame recycles it.  (A random initial age occurs only at
spawn.) -/
theorem C5_age_step :
    (∀ (env : Env) (wd : List WindPoint) (w h : ℚ) (k : ℕ)
        (ps : List MockWind.Particle),
       List.Forall₂ (fun p q => q.age = p.age + 1 ∨ q.age = 0) ps
         (MockWind.updateWindParticles env wd w h k ps).1)
    ∧ (∀ (env : Env) (wd : List WindPoint) (w h : ℚ) (k : ℕ)
        (ps : List CanvasMap.Particle),
       wd ≠ [] →
       List.Forall₂ (fun p q => q.age = p.age + 1 ∨ q.age = 0) ps
         (CanvasMap.updateParticles env wd w h k ps).1)
    ∧ (∀ (env : Env) (wd : List WindPoint) (b : Bounds) (s : ℚ) (k : ℕ)
        (ps : List DeckLayer.Particle),
       List.Forall₂ (fun p q => q.age = p.age + 1 ∨ q.age = 0 ∨ q.age = p.maxAge) ps
         (DeckLayer.updateParticles env wd b s true k ps).1) := by
  refine ⟨?_, ?_, ?_⟩
  · intro env wd w h k ps
    exact mapRand_forall₂ _ _ (fun k p => MockWind_updateOne_age env wd w h k p) k ps
  · intro env wd w h k ps hwd
    unfold CanvasMap.updateParticles
    rw [if_neg hwd]
    exact mapRand_forall₂ _ _ (fun k p => CanvasMap_updateOne_age env wd w h k p) k ps
  · intro env wd b s k ps
    unfold DeckLayer.updateParticles
    by_cases hps : ps = []
    · rw [if_pos (Or.inr hps)]
      subst hps
      exact List.Forall₂.nil
    · rw [if_neg (by simp [hps])]
      exact mapRand_forall₂ _ _ (fun k p => DeckLayer_updateOne_age env wd b s k p) k ps

/-- Concrete instantiation of claim C5 for the canvas map variant on a
one-particle population over a one-sample field. -/
theorem C5_age_step_witness :
    List.Forall₂ (fun p q => q.age = p.age + 1 ∨ q.age = 0)
      [(⟨0, 0, 0, 0, 0, 50, 1, 0⟩ : CanvasMap.Particle)]
      ((CanvasMap.updateParticles trivEnv [⟨0, 0, 0, 0⟩] 100 100 0
        [⟨0, 0, 0, 0, 0, 50, 1, 0⟩]).1) :=
  C5_age_step.2.1 trivEnv [⟨0, 0, 0, 0⟩] 100 100 0 [⟨0, 0, 0, 0, 0, 50, 1, 0⟩]
    (by simp)

lemma sqDist_nonneg (p : WindPoint) (lng lat : ℚ) : 0 ≤ sqDist p lng lat :=
  add_nonneg (mul_self_nonneg _) (mul_self_nonneg _)

lemma findClosestGo_first_min (lng lat : ℚ) :
    ∀ (l : List WindPoint) (b : WindPoint),
    (findClosestGo lng lat l b (sqDist b lng lat) ∈ b :: l)
    ∧ (∀ q ∈ b :: l,
        sqDist (findClosestGo lng lat l b (sqDist b lng lat)) lng lat ≤ sqDist q lng lat)
    ∧ ∃ l1 l2, b :: l = l1 ++ findClosestGo lng lat l b (sqDist b lng lat) :: l2
        ∧ ∀ q ∈ l1,
          sqDist (findClosestGo lng lat l b (sqDist b lng lat)) lng lat < sqDist q lng lat := by
  intro l
  induction l with
  | nil =>
    intro b
    refine ⟨by simp [findClosestGo], ?_, [], [], by simp [findClosestGo], by simp⟩
    intro q hq
    simp only [findClosestGo]
    rw [List.mem_singleton.mp hq]
  | cons p rest ih =>
    intro b
    simp only [findClosestGo]
    split
    · next hlt =>
      obtain ⟨h1, h2, l1, l2, hdec, hstr⟩ := ih p
      refine ⟨List.mem_cons_of_mem b h1, ?_, b :: l1, l2, by rw [List.cons_append, hdec],
        ?_⟩
      · intro q hq
        rcases List.mem_cons.mp hq with rfl | hq
        · exact (h2 p (List.mem_cons_self p rest)).trans hlt.le
        · exact h2 q hq
      · intro q hq
        rcases List.mem_cons.mp hq with rfl | hq
        · exact lt_of_le_of_lt (h2 p (List.mem_cons_self p rest)) hlt
        · exact hstr q hq
    · next hge =>
      have hge' : sqDist b lng lat ≤ sqDist p lng lat := not_lt.mp hge
      obtain ⟨h1, h2, l1, l2, hdec, hstr⟩ := ih b
      refine ⟨?_, ?_, ?_⟩
      · rcases List.mem_cons.mp h1 with h | h
        · rw [h]
          exact List.mem_cons_self _ _
        · exact List.mem_cons_of_mem b (List.mem_cons_of_mem p h)
      · intro q hq
        rcases List.mem_cons.mp hq with rfl | hq
        · exact h2 q (List.mem_cons_self q rest)
        · rcases List.mem_cons.mp hq with rfl | hq
          · exact (h2 b (List.mem_cons_self b rest)).trans hge'
          · exact h2 q (List.mem_cons_of_mem b hq)
      · cases l1 with
        | nil =>
          have hb : b = findClosestGo lng lat rest b (sqDist b lng lat) :=
            (List.cons.injEq _ _ _ _ ▸ hdec).1
          exact ⟨[], p :: rest, by rw [List.nil_append] at hdec ⊢; rw [← hb], by simp⟩
        | cons c t =>
          have hc : c = b ∧ rest = t ++ findClosestGo lng lat rest b (sqDist b lng lat) :: l2 := by
            have := hdec
            rw [List.cons_append] at this
            exact ⟨((List.cons.injEq _ _ _ _).mp this).1.symm,
              ((List.cons.injEq _ _ _ _).mp this).2⟩
          refine ⟨b :: p :: t, l2, ?_, ?_⟩
          · rw [List.cons_append, List.cons_append, ← hc.2]
          · intro q hq
            rcases List.mem_cons.mp hq with rfl | hq
            · exact hstr q (hc.1 ▸ List.mem_cons_self c t)
            · rcases List.mem_cons.mp hq with rfl | hq
              · exact lt_of_lt_of_le (hstr b (hc.1 ▸ List.mem_cons_self c t)) hge'
              · exact hstr q (List.mem_cons_of_mem c hq)

lemma findClosestGo_initial (lng lat : ℚ) :
    ∀ (l : List WindPoint) (b : WindPoint) (minD : ℚ),
    (∃ q ∈ l, sqDist q lng lat < minD) → ¬ (sqDist b lng lat < minD) →
    (findClosestGo lng lat l b minD ∈ l)
    ∧ (∀ q ∈ b :: l, sqDist (findClosestGo lng lat l b minD) lng lat ≤ sqDist q lng lat)
    ∧ ∃ l1 l2, b :: l = l1 ++ findClosestGo lng lat l b minD :: l2
        ∧ ∀ q ∈ l1, sqDist (findClosestGo lng lat l b minD) lng lat < sqDist q lng lat := by
  intro l
  induction l with
  | nil =>
    intro b minD hex _
    simp at hex
  | cons p rest ih =>
    intro b minD hex hb
    have hbge : minD ≤ sqDist b lng lat := not_lt.mp hb
    simp only [findClosestGo]
    split
    · next hp =>
      obtain ⟨h1, h2, l1, l2, hdec, hstr⟩ := findClosestGo_first_min lng lat rest p
      have hrp : sqDist (findClosestGo lng lat rest p (sqDist p lng lat)) lng lat ≤
          sqDist p lng lat := h2 p (List.mem_cons_self p rest)
      have hrD : sqDist (findClosestGo lng lat rest p (sqDist p lng lat)) lng lat < minD :=
        lt_of_le_of_lt hrp hp
      refine ⟨h1, ?_, b :: l1, l2, by rw [List.cons_append, hdec], ?_⟩
      · intro q hq
        rcases List.mem_cons.mp hq with rfl | hq
        · exact hrD.le.trans hbge
        · exact h2 q hq
      · intro q hq
        rcases List.mem_cons.mp hq with rfl | hq
        · exact lt_of_lt_of_le hrD hbge
        · exact hstr q hq
    · next hp =>
      have hpge : minD ≤ sqDist p lng lat := not_lt.mp hp
      obtain ⟨q0, hq0, hq0lt⟩ := hex
      have hq0' : q0 ∈ rest := by
        rcases List.mem_cons.mp hq0 with rfl | h
        · exact absurd hq0lt hp
        · exact h
      obtain ⟨h1, h2, l1, l2, hdec, hstr⟩ := ih b minD ⟨q0, hq0', hq0lt⟩ hb
      have hrq : sqDist (findClosestGo lng lat rest b minD) lng lat ≤ sqDist q0 lng lat :=
        h2 q0 (List.mem_cons_of_mem b hq0')
      have hrD : sqDist (findClosestGo lng lat rest b minD) lng lat < minD :=
        lt_of_le_of_lt hrq hq0lt
      refine ⟨List.mem_cons_of_mem p h1, ?_, ?_⟩
      · intro q hq
        rcases List.mem_cons.mp hq with rfl | hq
        · exact h2 q (List.mem_cons_self q rest)
        · rcases List.mem_cons.mp hq with rfl | hq
          · exact hrD.le.trans hpge
          · exact h2 q (List.mem_cons_of_mem b hq)
      · cases l1 with
        | nil =>
          exfalso
          have hb' : b = findClosestGo lng lat rest b minD := by
            rw [List.nil_append] at hdec
            exact ((List.cons.injEq _ _ _ _).mp hdec).1
          rw [← hb'] at hrD
          exact hb hrD
        | cons c t =>
          have hc : c = b ∧ rest = t ++ findClosestGo lng lat rest b minD :: l2 := by
            have hx := hdec
            rw [List.cons_append] at hx
            exact ⟨((List.cons.injEq _ _ _ _).mp hx).1.symm,
              ((List.cons.injEq _ _ _ _).mp hx).2⟩
          refine ⟨b :: p :: t, l2, ?_, ?_⟩
          · rw [List.cons_append, List.cons_append, ← hc.2]
          · intro q hq
            rcases List.mem_cons.mp hq with rfl | hq
            · exact hstr q (hc.1 ▸ List.mem_cons_self c t)
            · rcases List.mem_cons.mp hq with rfl | hq
              · exact lt_of_lt_of_le hrD hpge
              · exact hstr q (List.mem_cons_of_mem c hq)

lemma firstMin_unique (lng lat : ℚ) :
    ∀ (l1 l l2 l1' l2' : List WindPoint) (r r' : WindPoint),
    l = l1 ++ r :: l2 → l = l1' ++ r' :: l2' →
    (∀ q ∈ l, sqDist r lng lat ≤ sqDist q lng lat) →
    (∀ q ∈ l, sqDist r' lng lat ≤ sqDist q lng lat) →
    (∀ q ∈ l1, sqDist r lng lat < sqDist q lng lat) →
    (∀ q ∈ l1', sqDist r' lng lat < sqDist q lng lat) →
    r = r' := by
  intro l1
  induction l1 with
  | nil =>
    intro l l2 l1' l2' r r' he he' h2 _ _ hs'
    rw [List.nil_append] at he
    cases l1' with
    | nil =>
      rw [List.nil_append] at he'
      exact ((List.cons.injEq _ _ _ _).mp (he.symm.trans he')).1
    | cons c' t' =>
      exfalso
      rw [List.cons_append] at he'
      have hcr : r = c' := ((List.cons.injEq _ _ _ _).mp (he.symm.trans he')).1
      have hmem : r' ∈ l := by
        rw [he']
        exact List.mem_cons_of_mem c' (List.mem_append_right t' (List.mem_cons_self r' l2'))
      have h1 : sqDist r' lng lat < sqDist r lng lat :=
        hs' r (by rw [hcr]; exact List.mem_cons_self c' t')
      exact absurd (h2 r' hmem) (not_le.mpr h1)
  | cons c t ih =>
    intro l l2 l1' l2' r r' he he' h2 h2' hs hs'
    rw [List.cons_append] at he
    cases l1' with
    | nil =>
      exfalso
      rw [List.nil_append] at he'
      have hcr : r' = c := ((List.cons.injEq _ _ _ _).mp (he'.symm.trans he)).1
      have hmem : r ∈ l := by
        rw [he]
        exact List.mem_cons_of_mem c (List.mem_append_right t (List.mem_cons_self r l2))
      have h1 : sqDist r lng lat < sqDist r' lng lat :=
        hs r' (by rw [hcr]; exact List.mem_cons_self c t)
      exact absurd (h2' r hmem) (not_le.mpr h1)
    | cons c' t' =>
      rw [List.cons_append] at he'
      have htl : t ++ r :: l2 = t' ++ r' :: l2' :=
        ((List.cons.injEq _ _ _ _).mp (he.symm.trans he')).2
      refine ih (t ++ r :: l2) l2 t' l2' r r' rfl htl ?_ ?_ ?_ ?_
      · intro q hq
        exact h2 q (by rw [he]; exact List.mem_cons_of_mem c hq)
      · intro q hq
        exact h2' q (by rw [he]; exact List.mem_cons_of_mem c hq)
      · intro q hq
        exact hs q (List.mem_cons_of_mem c hq)
      · intro q hq
        exact hs' q (List.mem_cons_of_mem c' hq)

lemma findClosestSqrtGo_eq (env : Env) (lng lat : ℚ) :
    ∀ (l : List WindPoint) (b : WindPoint),
    findClosestSqrtGo env lng lat l (some (b, env.sqrt (sqDist b lng lat))) =
      some (findClosestGo lng lat l b (sqDist b lng lat),
        env.sqrt (sqDist (findClosestGo lng lat l b (sqDist b lng lat)) lng lat)) := by
  intro l
  induction l with
  | nil =>
    intro b
    simp [findClosestSqrtGo, findClosestGo]
  | cons p rest ih =>
    intro b
    simp only [findClosestSqrtGo, findClosestGo]
    by_cases hc : sqDist p lng lat < sqDist b lng lat
    · rw [if_pos ((env.sqrt_lt_iff _ _ (sqDist_nonneg _ _ _)
        (sqDist_nonneg _ _ _)).mpr hc), if_pos hc]
      exact ih p
    · rw [if_neg (fun hlt => hc ((env.sqrt_lt_iff _ _ (sqDist_nonneg _ _ _)
        (sqDist_nonneg _ _ _)).mp hlt)), if_neg hc]
      exact ih b

lemma findClosestSqrt_eq_go (env : Env) (lng lat : ℚ) (w : WindPoint)
    (ws : List WindPoint) :
    findClosestSqrt env (w :: ws) lng lat =
      some (findClosestGo lng lat ws w (sqDist w lng lat)) := by
  simp only [findClosestSqrt, findClosestSqrtGo]
  rw [findClosestSqrtGo_eq env lng lat ws w]
  rfl

lemma findClosest_cons (lng lat : ℚ) (w : WindPoint) (ws : List WindPoint) :
    findClosest (w :: ws) lng lat =
      if sqDist w lng lat < maxValue then findClosestGo lng lat ws w (sqDist w lng lat)
      else findClosestGo lng lat ws w maxValue := by
  simp only [findClosest, List.headD_cons, findClosestGo]

lemma findClosest_spec (lng lat : ℚ) (w : WindPoint) (ws : List WindPoint)
    (hex : ∃ q ∈ w :: ws, sqDist q lng lat < maxValue) :
    (findClosest (w :: ws) lng lat ∈ w :: ws)
    ∧ (∀ q ∈ w :: ws,
        sqDist (findClosest (w :: ws) lng lat) lng lat ≤ sqDist q lng lat)
    ∧ ∃ l1 l2, w :: ws = l1 ++ findClosest (w :: ws) lng lat :: l2
        ∧ ∀ q ∈ l1, sqDist (findClosest (w :: ws) lng lat) lng lat < sqDist q lng lat := by
  rw [findClosest_cons]
  by_cases hw : sqDist w lng lat < maxValue
  · rw [if_pos hw]
    exact findClosestGo_first_min lng lat ws w
  · rw [if_neg hw]
    obtain ⟨q, hq, hqlt⟩ := hex
    have hq' : q ∈ ws := by
      rcases List.mem_cons.mp hq with rfl | h
      · exact absurd hqlt hw
      · exact h
    obtain ⟨h1, h2, hdec⟩ := findClosestGo_initial lng lat ws w maxValue ⟨q, hq', hqlt⟩ hw
    exact ⟨List.mem_cons_of_mem w h1, h2, hdec⟩

lemma findClosestSqrt_agrees (env : Env) (lng lat : ℚ) (w : WindPoint)
    (ws : List WindPoint) (hex : ∃ q ∈ w :: ws, sqDist q lng lat < maxValue) :
    findClosestSqrt env (w :: ws) lng lat = some (findClosest (w :: ws) lng lat) := by
  rw [findClosestSqrt_eq_go env lng lat w ws]
  obtain ⟨hm, h2, l1, l2, hdec, hstr⟩ := findClosest_spec lng lat w ws hex
  obtain ⟨hm', h2', l1', l2', hdec', hstr'⟩ := findClosestGo_first_min lng lat ws w
  exact congrArg some (firstMin_unique lng lat l1' (w :: ws) l2' l1 l2 _ _ hdec' hdec
    h2' h2 hstr' hstr)

/-- Claim C3, counterexample: because the scan of map.tsx starts its
running minimum at Number.MAX_VALUE rather than infinity, a field whose
samples all lie farther than sqrt (MAX_VALUE) from the query point makes
the scan return windData[0] even when a later sample is strictly
closer. -/
theorem C3_nearest_counterexample :
    findClosest [⟨2 ^ 600, 0, 0, 0⟩, ⟨2 ^ 599, 0, 0, 0⟩] 0 0 = ⟨2 ^ 600, 0, 0, 0⟩
    ∧ sqDist ⟨2 ^ 599, 0, 0, 0⟩ 0 0 < sqDist ⟨2 ^ 600, 0, 0, 0⟩ 0 0 := by
  constructor
  · rw [findClosest_cons,
      if_neg (by norm_num [sqDist, maxValue]),
      show findClosestGo 0 0 [⟨2 ^ 599, 0, 0, 0⟩] ⟨2 ^ 600, 0, 0, 0⟩ maxValue =
        findClosestGo 0 0 [] ⟨2 ^ 600, 0, 0, 0⟩ maxValue from by
          simp only [findClosestGo]
          rw [if_neg (by norm_num [sqDist, maxValue])]]
    rfl
  · norm_num [sqDist]

/-- Claim C3, amended: whenever some sample of a nonempty field lies
within squared distance Number.MAX_VALUE of the query point (always the
case for real geographic coordinates), the nearest-sample lookup returns
a sample of the field minimizing squared (equivalently Euclidean)
distance, the first such sample in scan order on a tie; the sqrt-taking
scan of mockWindData.ts returns the same sample as the squared-distance
scan of map.tsx, the two orderings being equivalent; and a query exactly
at a sample position returns a sample at that position. -/
theorem C3_nearest_sample (env : Env) (wd : List WindPoint) (lng lat : ℚ)
    (hne : wd ≠ []) (hex : ∃ q ∈ wd, sqDist q lng lat < maxValue) :
    (findClosest wd lng lat ∈ wd
     ∧ (∀ q ∈ wd, sqDist (findClosest wd lng lat) lng lat ≤ sqDist q lng lat)
     ∧ (∃ l1 l2, wd = l1 ++ findClosest wd lng lat :: l2
          ∧ ∀ q ∈ l1, sqDist (findClosest wd lng lat) lng lat < sqDist q lng lat)
     ∧ findClosestSqrt env wd lng lat = some (findClosest wd lng lat))
    ∧ ∀ p ∈ wd, (findClosest wd p.lon p.lat).lon = p.lon
        ∧ (findClosest wd p.lon p.lat).lat = p.lat := by
  obtain ⟨w, ws, rfl⟩ : ∃ w ws, wd = w :: ws := by
    cases wd with
    | nil => exact absurd rfl hne
    | cons w ws => exact ⟨w, ws, rfl⟩
  obtain ⟨h1, h2, hdec⟩ := findClosest_spec lng lat w ws hex
  refine ⟨⟨h1, h2, hdec, findClosestSqrt_agrees env lng lat w ws hex⟩, ?_⟩
  intro p hp
  have hz : sqDist p p.lon p.lat = 0 := by simp [sqDist]
  have hexp : ∃ q ∈ w :: ws, sqDist q p.lon p.lat < maxValue :=
    ⟨p, hp, by rw [hz]; norm_num [maxValue]⟩
  obtain ⟨_, h2p, _⟩ := findClosest_spec p.lon p.lat w ws hexp
  have hle := h2p p hp
  rw [hz] at hle
  have hzero : sqDist (findClosest (w :: ws) p.lon p.lat) p.lon p.lat = 0 :=
    le_antisymm hle (sqDist_nonneg _ _ _)
  have hlonNN := mul_self_nonneg ((findClosest (w :: ws) p.lon p.lat).lon - p.lon)
  have hlatNN := mul_self_nonneg ((findClosest (w :: ws) p.lon p.lat).lat - p.lat)
  simp only [sqDist] at hzero
  constructor
  · have ha : ((findClosest (w :: ws) p.lon p.lat).lon - p.lon) *
        ((findClosest (w :: ws) p.lon p.lat).lon - p.lon) = 0 := by nlinarith
    exact sub_eq_zero.mp (mul_self_eq_zero.mp ha)
  · have hb : ((findClosest (w :: ws) p.lon p.lat).lat - p.lat) *
        ((findClosest (w :: ws) p.lon p.lat).lat - p.lat) = 0 := by nlinarith
    exact sub_eq_zero.mp (mul_self_eq_zero.mp hb)

/-- Concrete instantiation of claim C3 on a two-sample field: the lookup
result is a member of the field. -/
theorem C3_nearest_sample_witness :
    findClosest [⟨0, 0, 0, 0⟩, ⟨3, 4, 0, 0⟩] 0 1 ∈
      ([⟨0, 0, 0, 0⟩, ⟨3, 4, 0, 0⟩] : List WindPoint) :=
  (C3_nearest_sample trivEnv [⟨0, 0, 0, 0⟩, ⟨3, 4, 0, 0⟩] 0 1 (by simp)
    ⟨⟨0, 0, 0, 0⟩, List.mem_cons_self _ _, by norm_num [sqDist, maxValue]⟩).1.1

end WindMap
